import Mathlib

/-!
Shallow embedding of the Session & Caption State Provider
(src/frontendjm/src/contexts/AuthContext.tsx).

The provider holds two independent groups of state: the auth session
(user, token) and the live caption engine (transcript, transcriptHistory,
isListening, captionStyle).  Each operation of the component is embedded
as a pure function on an explicit state; browser side effects (alerts,
recognition start/stop, console logging) are returned as an effect list,
and the persistent key-value store (localStorage keys token and user)
is an explicit Storage record threaded through the operations that touch
it.  External capabilities (the auth service, JSON.parse) enter as
parameters: the auth call result as an Except value, parsing as a
String to Option User function.
-/

namespace StreamAura

/-- Embeds the User interface: { id, email, firstName, lastName }. -/
structure User where
  id : String
  email : String
  firstName : String
  lastName : String
deriving DecidableEq

/-- Embeds the fontSize union type: small | medium | large. -/
inductive FontSize where
  | small
  | medium
  | large
deriving DecidableEq

/-- Embeds the CaptionStyle interface: { fontSize, color }. -/
structure CaptionStyle where
  fontSize : FontSize
  color : String
deriving DecidableEq

/-- Embeds TypeScript Partial of CaptionStyle: each field optionally present. -/
structure CaptionStyleUpdate where
  fontSize : Option FontSize := none
  color : Option String := none
deriving DecidableEq

/-- Embeds the TranscriptEntry interface: { id, text }. -/
structure TranscriptEntry where
  id : String
  text : String
deriving DecidableEq

/-- The provider state: the useState fields of AuthProvider. -/
structure ProviderState where
  user : Option User
  token : Option String
  transcript : String
  transcriptHistory : List TranscriptEntry
  isListening : Bool
  captionStyle : CaptionStyle
deriving DecidableEq

/-- The initial state values passed to useState in AuthProvider. -/
def initialState : ProviderState :=
  { user := none
    token := none
    transcript := ""
    transcriptHistory := []
    isListening := false
    captionStyle := { fontSize := FontSize.medium, color := "white" } }

/-- The persistent key-value store: the two localStorage keys the
component reads and writes (token and user); none models an absent key. -/
structure Storage where
  token : Option String
  user : Option String
deriving DecidableEq

/-- Browser side effects the component performs, in order. -/
inductive Effect where
  | alertUnsupported
  | alertMicDenied
  | recStart
  | recStop
  | logError
deriving DecidableEq

/-- Character-list core of JavaScript String.prototype.trim: drop
whitespace from both ends. -/
def trimChars (cs : List Char) : List Char :=
  ((cs.dropWhile Char.isWhitespace).reverse.dropWhile Char.isWhitespace).reverse

/-- Embedding of JavaScript String.prototype.trim. -/
def jsTrim (s : String) : String :=
  String.mk (trimChars s.data)

/-- Embedding of JavaScript Number.prototype.toString for the Date.now()
timestamp (a natural number of milliseconds): decimal representation. -/
def jsNatToString (n : Nat) : String :=
  Nat.repr n

/-- The entry addToHistory builds: id is Date.now().toString(), text is
the argument stored verbatim. -/
def mkEntry (now : Nat) (text : String) : TranscriptEntry :=
  { id := jsNatToString now, text := text }

/-- Embeds addToHistory: if text.trim() is empty return unchanged,
otherwise prepend the new entry and keep the first 50. -/
def addToHistory (now : Nat) (text : String) (s : ProviderState) : ProviderState :=
  if jsTrim text = "" then s
  else { s with transcriptHistory := (mkEntry now text :: s.transcriptHistory).take 50 }

/-- A sequence of addToHistory calls, each with its Date.now() timestamp. -/
def runAppends (inputs : List (Nat × String)) (s : ProviderState) : ProviderState :=
  inputs.foldl (fun st x => addToHistory x.1 x.2 st) s

/-- Embeds clearHistory: setTranscriptHistory([]). -/
def clearHistory (s : ProviderState) : ProviderState :=
  { s with transcriptHistory := [] }

/-- Embeds the object spread in updateCaptionStyle: fields present in the
update override, the rest come from prev. -/
def mergeStyle (prev : CaptionStyle) (u : CaptionStyleUpdate) : CaptionStyle :=
  { fontSize := u.fontSize.getD prev.fontSize
    color := u.color.getD prev.color }

/-- Embeds updateCaptionStyle: setCaptionStyle(prev spread with style). -/
def updateCaptionStyle (u : CaptionStyleUpdate) (s : ProviderState) : ProviderState :=
  { s with captionStyle := mergeStyle s.captionStyle u }

/-- Embeds startListening.  hasRecognition models whether the
SpeechRecognition constructor exists in the environment; when it does
not, the function alerts and returns without touching state. -/
def startListening (hasRecognition : Bool) (s : ProviderState) :
    ProviderState × List Effect :=
  if !hasRecognition then (s, [Effect.alertUnsupported])
  else ({ s with isListening := true, transcript := "" }, [Effect.recStart])

/-- Embeds stopListening: no-op when the capability is absent, otherwise
clear the flag and stop recognition. -/
def stopListening (hasRecognition : Bool) (s : ProviderState) :
    ProviderState × List Effect :=
  if !hasRecognition then (s, [])
  else ({ s with isListening := false }, [Effect.recStop])

/-- Embeds the recognition.onend handler.  The recognition instance is
rebuilt on every render and its handler closes over that render's
isListening const, so the flag the handler tests is the one captured
when the running instance was constructed, not the provider's current
state: if the captured flag is true, call recognition.start(); the
state itself is not modified. -/
def onEnd (capturedIsListening : Bool) (s : ProviderState) :
    ProviderState × List Effect :=
  if capturedIsListening then (s, [Effect.recStart]) else (s, [])

/-- Embeds isAuthenticated: !!token, the JavaScript double negation of
the nullable token string, which is false for null and for the empty
string and true for any non-empty token. -/
def isAuthenticated (token : Option String) : Bool :=
  match token with
  | none => false
  | some s => !(s == "")

/-- Model of JSON.stringify on a User object, as written on login. -/
def serializeUser (u : User) : String :=
  "\x7b\"id\":\"" ++ u.id ++ "\",\"email\":\"" ++ u.email ++
    "\",\"firstName\":\"" ++ u.firstName ++ "\",\"lastName\":\"" ++
    u.lastName ++ "\"\x7d"

/-- Embeds the hydration useEffect.  JavaScript truthiness of
localStorage.getItem results makes the guard require both keys present
with non-empty values and the user value distinct from the literal
string undefined.  Inside the try block setToken runs first, then
JSON.parse (modelled by the parseUser parameter, none = throw); the
catch block removes both keys but cannot undo the setToken call. -/
def hydrate (parseUser : String → Option User) (store : Storage)
    (s : ProviderState) : ProviderState × Storage :=
  match store.token, store.user with
  | some t, some u =>
    if t ≠ "" ∧ u ≠ "" ∧ u ≠ "undefined" then
      match parseUser u with
      | some usr => ({ s with token := some t, user := some usr }, store)
      | none => ({ s with token := some t }, { token := none, user := none })
    else (s, store)
  | _, _ => (s, store)

/-- Embeds login: on a successful auth-service response install token and
user in memory and persist both (the user serialized); on failure
re-throw the error unchanged. -/
def login {E : Type} (result : Except E (String × User)) (s : ProviderState)
    (store : Storage) : Except E (ProviderState × Storage) :=
  match result with
  | Except.ok (t, u) =>
      Except.ok ({ s with token := some t, user := some u },
                 { store with token := some t, user := some (serializeUser u) })
  | Except.error e => Except.error e

/-- Embeds logout: clear the in-memory session and remove both keys. -/
def logout (s : ProviderState) (_store : Storage) : ProviderState × Storage :=
  ({ s with user := none, token := none }, { token := none, user := none })

/-- The inputs addToHistory actually records: those whose trimmed text is
non-empty. -/
def keepInput (x : Nat × String) : Bool :=
  !(jsTrim x.2 == "")

/-- The entries a sequence of appends contributes, oldest first. -/
def entriesOf (inputs : List (Nat × String)) : List TranscriptEntry :=
  (inputs.filter keepInput).map (fun x => mkEntry x.1 x.2)

/-! ### Helper lemmas -/

theorem runAppends_nil (s : ProviderState) : runAppends [] s = s := rfl

theorem runAppends_cons (x : Nat × String) (xs : List (Nat × String))
    (s : ProviderState) :
    runAppends (x :: xs) s = runAppends xs (addToHistory x.1 x.2 s) := rfl

theorem take_append_take {α : Type} (a b : List α) (n : Nat) :
    (a ++ b.take n).take n = (a ++ b).take n := by
  rw [List.take_append_eq_append_take, List.take_append_eq_append_take,
    List.take_take, Nat.min_eq_left (Nat.sub_le n a.length)]

/-- Unfolding of one addToHistory step on the history field. -/
theorem addToHistory_kept (now : Nat) (text : String) (s : ProviderState)
    (h : ¬ jsTrim text = "") :
    addToHistory now text s =
      { s with transcriptHistory :=
          (mkEntry now text :: s.transcriptHistory).take 50 } := by
  unfold addToHistory
  rw [if_neg h]

theorem addToHistory_skipped (now : Nat) (text : String) (s : ProviderState)
    (h : jsTrim text = "") : addToHistory now text s = s := by
  unfold addToHistory
  rw [if_pos h]

/-- Closed form of a run of appends: the history is the first 50 of the
kept entries newest first, in front of the starting history. -/
theorem runAppends_transcriptHistory (inputs : List (Nat × String)) :
    ∀ s : ProviderState, s.transcriptHistory.length ≤ 50 →
      (runAppends inputs s).transcriptHistory =
        ((entriesOf inputs).reverse ++ s.transcriptHistory).take 50 := by
  induction inputs with
  | nil =>
    intro s hs
    rw [runAppends_nil]
    have : entriesOf [] = [] := rfl
    rw [this, List.reverse_nil, List.nil_append, List.take_of_length_le hs]
  | cons x xs ih =>
    intro s hs
    rw [runAppends_cons]
    by_cases h : jsTrim x.2 = ""
    · have hk : keepInput x = false := by
        unfold keepInput
        simp [h]
      have he : entriesOf (x :: xs) = entriesOf xs := by
        unfold entriesOf
        rw [List.filter_cons_of_neg (by simp [hk])]
      rw [addToHistory_skipped x.1 x.2 s h, he]
      exact ih s hs
    · have hk : keepInput x = true := by
        unfold keepInput
        simp [h]
      have he : entriesOf (x :: xs) = mkEntry x.1 x.2 :: entriesOf xs := by
        unfold entriesOf
        rw [List.filter_cons_of_pos (by simp [hk])]
        rfl
      rw [addToHistory_kept x.1 x.2 s h]
      rw [ih _ (by simp)]
      rw [he, List.reverse_cons, take_append_take, List.append_assoc,
        List.singleton_append]

/-- When every appended text is non-whitespace, every input is kept. -/
theorem entriesOf_all_kept (inputs : List (Nat × String))
    (h : ∀ x ∈ inputs, ¬ jsTrim x.2 = "") :
    entriesOf inputs = inputs.map (fun x => mkEntry x.1 x.2) := by
  unfold entriesOf
  rw [List.filter_eq_self.mpr]
  intro a ha
  unfold keepInput
  simp [h a ha]

/-! ### Helper lemmas for trimming -/

theorem trimChars_eq_nil (cs : List Char) (h : ∀ c ∈ cs, c.isWhitespace) :
    trimChars cs = [] := by
  unfold trimChars
  rw [List.dropWhile_eq_nil_iff.mpr h]
  simp

theorem jsTrim_eq_empty (t : String) (h : ∀ c ∈ t.data, c.isWhitespace) :
    jsTrim t = "" := by
  unfold jsTrim
  rw [trimChars_eq_nil t.data h]

/-! ### Claim theorems -/

/-- Claim C4 (counterexample): at the non-null empty token the program
computes isAuthenticated = false, because !!token applies JavaScript
truthiness to the token string; this refutes the claimed equivalence
with plain non-nullness. -/
theorem isAuthenticated_empty_token_counterexample :
    isAuthenticated (some "") = false ∧ (some "" : Option String) ≠ none := by
  decide

/-- Claim C4 (amended): the derived flag isAuthenticated is true if and
only if the token value is non-null and non-empty (the truthiness of
the nullable token string), for every possible token value. -/
theorem isAuthenticated_iff_token_truthy (t : Option String) :
    isAuthenticated t = true ↔ t ≠ none ∧ t ≠ some "" := by
  unfold isAuthenticated
  cases t with
  | none => simp
  | some s => simp

/-- Claim C5 (divergence witness): startListening called from idle starts
the recognition instance built in a render where isListening was still
false, so its onend closure captured false; when the capability ends the
session on its own, the handler performs no restart even though the
provider's isListening is true by then, and the flag stays true with
recognition stopped. -/
theorem onEnd_stale_closure_no_restart :
    (startListening true initialState).1.isListening = true ∧
    onEnd initialState.isListening (startListening true initialState).1 =
      ((startListening true initialState).1, []) ∧
    Effect.recStart ∉
      (onEnd initialState.isListening (startListening true initialState).1).2 := by
  decide

/-- Claim C6: appending a finalized result whose text consists entirely of
whitespace leaves the provider state, transcript history included,
exactly unchanged. -/
theorem addToHistory_whitespace_noop (now : Nat) (text : String)
    (s : ProviderState) (h : ∀ c ∈ text.data, c.isWhitespace) :
    addToHistory now text s = s := by
  unfold addToHistory
  rw [jsTrim_eq_empty text h]
  simp

theorem addToHistory_whitespace_noop_witness :
    addToHistory 7 " \t " initialState = initialState :=
  addToHistory_whitespace_noop 7 " \t " initialState (by decide)

/-- Claim C7: updateCaptionStyle applied to a partial containing only a
color value changes only the color; the fontSize and every other field
of the state are unchanged. -/
theorem updateCaptionStyle_color_only (s : ProviderState) (c : String) :
    updateCaptionStyle { color := some c } s =
      { s with captionStyle :=
          { fontSize := s.captionStyle.fontSize, color := c } } := rfl

/-- Claim C8: calling startListening when the recognition capability is
absent returns normally, leaves the state (isListening, transcript,
history) unchanged, performs no recognition start, and only reports the
capability as unsupported. -/
theorem startListening_unsupported (s : ProviderState)
    (h : s.isListening = false) :
    startListening false s = (s, [Effect.alertUnsupported]) ∧
    (startListening false s).1.isListening = false ∧
    (startListening false s).1.transcript = s.transcript ∧
    (startListening false s).1.transcriptHistory = s.transcriptHistory ∧
    Effect.recStart ∉ (startListening false s).2 := by
  unfold startListening
  simp [h]

theorem startListening_unsupported_witness :
    startListening false initialState = (initialState, [Effect.alertUnsupported]) ∧
    (startListening false initialState).1.isListening = false ∧
    (startListening false initialState).1.transcript = initialState.transcript ∧
    (startListening false initialState).1.transcriptHistory =
      initialState.transcriptHistory ∧
    Effect.recStart ∉ (startListening false initialState).2 :=
  startListening_unsupported initialState rfl

/-- Claim C10: clearHistory empties the transcript history, leaves every
other field of the provider state unchanged, and is idempotent. -/
theorem clearHistory_frame_idempotent (s : ProviderState) :
    (clearHistory s).transcriptHistory = [] ∧
    (clearHistory s).transcript = s.transcript ∧
    (clearHistory s).isListening = s.isListening ∧
    (clearHistory s).captionStyle = s.captionStyle ∧
    (clearHistory s).user = s.user ∧
    (clearHistory s).token = s.token ∧
    clearHistory (clearHistory s) = clearHistory s :=
  ⟨rfl, rfl, rfl, rfl, rfl, rfl, rfl⟩

/-- Claim C9: a successful login installs the returned token and user in
memory and persists the token and the serialized user under the two
storage keys; a failed auth call is re-thrown unchanged. -/
theorem login_success_failure {E : Type} (s : ProviderState) (store : Storage) :
    (∀ (t : String) (u : User),
        login (Except.ok (t, u) : Except E (String × User)) s store =
          Except.ok ({ s with token := some t, user := some u },
                     { token := some t, user := some (serializeUser u) })) ∧
    (∀ (e : E), login (Except.error e) s store = Except.error e) :=
  ⟨fun _ _ => rfl, fun _ => rfl⟩

/-- Claim C2: appending N finalized results with non-whitespace text
leaves the history equal to the reversed entry list truncated to 50 (the
min(N, 50) most recently appended entries, newest first); its length is
exactly 50 when N exceeds 50 and exactly N otherwise. -/
theorem runAppends_capped_newest_first (inputs : List (Nat × String))
    (h : ∀ x ∈ inputs, ¬ jsTrim x.2 = "") :
    (runAppends inputs initialState).transcriptHistory =
      ((inputs.map (fun x => mkEntry x.1 x.2)).reverse).take 50 ∧
    (runAppends inputs initialState).transcriptHistory.length =
      min inputs.length 50 := by
  have hmain := runAppends_transcriptHistory inputs initialState (by simp [initialState])
  rw [entriesOf_all_kept inputs h] at hmain
  have hist : initialState.transcriptHistory = [] := rfl
  rw [hist, List.append_nil] at hmain
  refine ⟨hmain, ?_⟩
  rw [hmain, List.length_take, List.length_reverse, List.length_map,
    Nat.min_comm]

theorem runAppends_capped_newest_first_witness :
    (runAppends [(1, "a"), (2, "b"), (3, "c")] initialState).transcriptHistory =
      (([(1, "a"), (2, "b"), (3, "c")].map
          (fun x => mkEntry x.1 x.2)).reverse).take 50 ∧
    (runAppends [(1, "a"), (2, "b"), (3, "c")]
        initialState).transcriptHistory.length =
      min ([(1, "a"), (2, "b"), (3, "c")] : List (Nat × String)).length 50 :=
  runAppends_capped_newest_first [(1, "a"), (2, "b"), (3, "c")] (by decide)

/-! ### Decimal representation: correctness of Nat.repr via a decoder -/

/-- Decodes one decimal digit character. -/
def decodeDigit (c : Char) : Nat :=
  c.toNat - 48

/-- Decodes a most-significant-first decimal digit string. -/
def decodeDigits (cs : List Char) : Nat :=
  cs.foldl (fun a c => 10 * a + decodeDigit c) 0

/-- Structural (fuel-free) version of the decimal digit list. -/
def decDigits (n : Nat) : List Char :=
  if _h : n < 10 then [Nat.digitChar n]
  else decDigits (n / 10) ++ [Nat.digitChar (n % 10)]
termination_by n
decreasing_by exact Nat.div_lt_self (by omega) (by omega)

theorem decDigits_lt (n : Nat) (h : n < 10) : decDigits n = [Nat.digitChar n] := by
  unfold decDigits
  rw [dif_pos h]

theorem decDigits_ge (n : Nat) (h : ¬ n < 10) :
    decDigits n = decDigits (n / 10) ++ [Nat.digitChar (n % 10)] := by
  conv_lhs => unfold decDigits
  rw [dif_neg h]

theorem toDigitsCore_eq_decDigits (fuel : Nat) :
    ∀ (n : Nat) (acc : List Char), n < fuel →
      Nat.toDigitsCore 10 fuel n acc = decDigits n ++ acc := by
  induction fuel with
  | zero => omega
  | succ f ih =>
    intro n acc hn
    unfold Nat.toDigitsCore
    by_cases h0 : n / 10 = 0
    · have hlt : n < 10 := by omega
      rw [if_pos h0, decDigits_lt n hlt, Nat.mod_eq_of_lt hlt,
        List.singleton_append]
    · have hge : ¬ n < 10 := by
        intro hlt
        exact h0 (Nat.div_eq_of_lt hlt)
      have hrec : n / 10 < f := by
        have h1 : n / 10 < n := Nat.div_lt_self (by omega) (by omega)
        omega
      rw [if_neg h0, ih (n / 10) _ hrec, decDigits_ge n hge,
        List.append_assoc, List.singleton_append]

theorem digitChar_decode (d : Nat) (h : d < 10) :
    decodeDigit (Nat.digitChar d) = d := by
  revert h
  revert d
  decide

theorem decodeDigits_decDigits (n : Nat) : decodeDigits (decDigits n) = n := by
  induction n using Nat.strong_induction_on with
  | _ n ih =>
    by_cases h : n < 10
    · rw [decDigits_lt n h]
      unfold decodeDigits
      rw [List.foldl_cons, List.foldl_nil, digitChar_decode n h]
      omega
    · rw [decDigits_ge n h]
      unfold decodeDigits
      rw [List.foldl_append]
      have ihq := ih (n / 10) (Nat.div_lt_self (by omega) (by omega))
      unfold decodeDigits at ihq
      rw [ihq, List.foldl_cons, List.foldl_nil,
        digitChar_decode (n % 10) (Nat.mod_lt n (by omega))]
      omega

theorem jsNatToString_eq_decDigits (n : Nat) :
    jsNatToString n = String.mk (decDigits n) := by
  unfold jsNatToString
  show (Nat.toDigits 10 n).asString = String.mk (decDigits n)
  unfold Nat.toDigits
  rw [toDigitsCore_eq_decDigits (n + 1) n [] (by omega), List.append_nil]
  rfl

theorem jsNatToString_injective (m n : Nat)
    (h : jsNatToString m = jsNatToString n) : m = n := by
  rw [jsNatToString_eq_decDigits, jsNatToString_eq_decDigits] at h
  have hdata : decDigits m = decDigits n := congrArg String.data h
  have := congrArg decodeDigits hdata
  rwa [decodeDigits_decDigits, decodeDigits_decDigits] at this

/-- Claim C3 (counterexample): two appends in the same millisecond, one of
them with leading whitespace, produce a history whose first entry keeps
its untrimmed text verbatim and whose two ids collide, refuting both the
text-is-trimmed part and the id-uniqueness part of the claim. -/
theorem transcriptEntry_invariant_counterexample :
    (runAppends [(5, "b"), (5, " a")] initialState).transcriptHistory =
      [{ id := "5", text := " a" }, { id := "5", text := "b" }] ∧
    ¬ (∀ e ∈ (runAppends [(5, "b"), (5, " a")] initialState).transcriptHistory,
        e.text = jsTrim e.text) ∧
    ¬ ((runAppends [(5, "b"), (5, " a")] initialState).transcriptHistory.map
        TranscriptEntry.id).Nodup := by decide

/-- Claim C3 (amended): every entry in the history has text whose trimmed
form is non-empty (the text itself is stored verbatim, not trimmed), and
when all append timestamps are pairwise distinct the time-derived ids of
the entries are pairwise distinct. -/
theorem runAppends_entry_invariant (inputs : List (Nat × String))
    (hd : inputs.Pairwise (fun a b => a.1 ≠ b.1)) :
    (∀ e ∈ (runAppends inputs initialState).transcriptHistory,
        ¬ jsTrim e.text = "") ∧
    (runAppends inputs initialState).transcriptHistory.Pairwise
      (fun a b => a.id ≠ b.id) := by
  have hmain := runAppends_transcriptHistory inputs initialState
    (by simp [initialState])
  have hist0 : initialState.transcriptHistory = [] := rfl
  rw [hist0, List.append_nil] at hmain
  constructor
  · intro e he
    rw [hmain] at he
    have he2 := List.mem_of_mem_take he
    rw [List.mem_reverse] at he2
    unfold entriesOf at he2
    rw [List.mem_map] at he2
    obtain ⟨x, hx, hxe⟩ := he2
    rw [List.mem_filter] at hx
    have hk := hx.2
    unfold keepInput at hk
    have htext : e.text = x.2 := by
      rw [← hxe]
      rfl
    intro hcontra
    rw [htext] at hcontra
    rw [hcontra] at hk
    simp at hk
  · rw [hmain]
    apply List.Pairwise.sublist (List.take_sublist _ _)
    rw [List.pairwise_reverse]
    unfold entriesOf
    rw [List.pairwise_map]
    refine (hd.filter keepInput).imp ?_
    intro a b hab hid
    exact hab (jsNatToString_injective b.1 a.1 hid).symm

theorem runAppends_entry_invariant_witness :
    (∀ e ∈ (runAppends [(1, " a"), (2, "b")] initialState).transcriptHistory,
        ¬ jsTrim e.text = "") ∧
    (runAppends [(1, " a"), (2, "b")] initialState).transcriptHistory.Pairwise
      (fun a b => a.id ≠ b.id) :=
  runAppends_entry_invariant [(1, " a"), (2, "b")] (by decide)

/-- Claim C1 (divergence witness): with both keys present, the user value
not the literal undefined, and parsing failing, hydration removes both
persisted keys but leaves the token installed in memory, so
isAuthenticated is true, not false: setToken runs before JSON.parse and
the catch block does not undo it. -/
theorem hydrate_parse_failure_keeps_token :
    hydrate (fun _ => none) { token := some "tok", user := some "bad" }
        initialState =
      ({ initialState with token := some "tok" },
       { token := none, user := none }) ∧
    isAuthenticated (hydrate (fun _ => none)
        { token := some "tok", user := some "bad" } initialState).1.token
      = true ∧
    (hydrate (fun _ => none)
        { token := some "tok", user := some "bad" } initialState).1.user
      = none := by
  refine ⟨?_, rfl, rfl⟩
  unfold hydrate
  simp

end StreamAura
